import Mathlib

/- Verification development for the Trade-Dangerous `run` command
(`commands/run_cmd.py`): a shallow embedding of the hop-loop trade search
and its helpers (station suitability checking, station-set filtering,
jump-ring expansion, via-set validation, unique-route validation, beam
pruning, the goal-system early exit, and the post-search via filter),
together with theorems settling the specified properties. -/

namespace TradeRun

/-- Errors raised by the run command.  `noData` embeds Python
`NoDataError`, `commandLine` embeds `CommandLineError`. -/
inductive RunError where
  | noData (msg : String)
  | commandLine (msg : String)
deriving DecidableEq, Repr

/-- The station fields read by `run_cmd.py`: number of priced commodities
(`itemCount`), landing-pad class (`maxPadSize`), black-market flag
(`blackMarket`, the character Y when present), distance from the star in
light seconds (`lsFromStar`) and the age of the price data (`dataAge`).
`system` is the id of the owning system. -/
structure Station where
  stnId : Nat
  system : Nat
  name : String
  itemCount : Nat
  maxPadSize : Char
  blackMarket : Char
  lsFromStar : Int
  dataAge : Rat
deriving DecidableEq, Repr

/-- Modelled from the spec: `Station.checkPadSize` lives in the external
`tradedb` module, which is not among the sources under verification.  Per
the spec the `--pad-size` option is a string of allowed pad classes
(S, M, L and ? for unknown) and a station passes when its own pad class
is among them.  We model the option value as the list of its characters
and the check as membership. -/
def Station.checkPadSize (station : Station) (mps : List Char) : Bool :=
  mps.contains station.maxPadSize

/-- The fields of the command environment consulted by
`checkStationSuitability`.  Python truthiness of the option values is
embedded as: `padSize = []` means unset (None or the empty string),
`maxLs = 0` and `maxAge = 0` mean unset (the argument defaults). -/
structure RunEnv where
  padSize : List Char
  blackMarket : Bool
  maxLs : Nat
  maxAge : Rat
deriving DecidableEq, Repr

/-- Python truthiness of the `src` argument (a string or None): truthy
iff present and non-empty. -/
def srcTruthy : Option String → Bool
  | none => false
  | some s => !(s == "")

/-- Embedding of `checkStationSuitability(cmdenv, station, src=None)`
(run_cmd.py lines 426-474).  Returns `ok true` / `ok false` for the
Python `True` / `False` returns and `error e` where the Python raises.
The message strings are abbreviated; the error kind and the branch
structure follow the source. -/
def checkStationSuitability (env : RunEnv) (station : Station)
    (src : Option String) : Except RunError Bool :=
  if station.itemCount = 0 then
    if srcTruthy src then
      .error (.noData ("No price data in local database for station " ++ station.name))
    else .ok false
  else
    let mps := env.padSize
    if mps ≠ [] ∧ station.checkPadSize mps = false then
      if srcTruthy src then
        .error (.commandLine ("station does not meet pad-size requirement: " ++ station.name))
      else .ok false
    else
      if env.blackMarket = true ∧ station.blackMarket ≠ 'Y' then
        if srcTruthy src ∧ src ≠ some "--from" then
          .error (.commandLine ("station does not meet black-market requirement: " ++ station.name))
        else .ok false
      else
        if env.maxLs ≠ 0 ∧ (station.lsFromStar ≤ 0 ∨ (env.maxLs : Int) < station.lsFromStar) then
          if srcTruthy src ∧ src ≠ some "--from" then
            .error (.commandLine ("station does not meet max-ls requirement: " ++ station.name))
          else .ok false
        else
          if env.maxAge ≠ 0 ∧ env.maxAge < station.dataAge then
            if srcTruthy src ∧ src ≠ some "--from" then
              .error (.commandLine ("station does not meet age requirement: " ++ station.name))
            else .ok false
          else .ok true

/-- A place is a station or a system (the duck-typed `Station` / `System`
objects of the source, reduced to the data the claims consult). -/
inductive Place where
  | station (stn : Station)
  | system (sysId : Nat)
deriving DecidableEq, Repr

/-- The predicate of the list comprehension inside `filterStationSet`:
keep a place unless it is a station that fails the suitability check
(called without a `src` context, so the check cannot raise). -/
def keepPlace (env : RunEnv) : Place → Bool
  | .system _ => true
  | .station stn =>
    match checkStationSuitability env stn none with
    | .ok b => b
    | .error _ => false

/-- Embedding of `filterStationSet(src, cmdenv, stnList)` (run_cmd.py
lines 477-490).  The source computes `filtered` but then tests and
returns `stnList` itself, so the computed list is discarded. -/
def filterStationSet (src : String) (env : RunEnv) (stnList : List Place) :
    Except RunError (List Place) :=
  if stnList = [] then .ok stnList
  else
    let _filtered := stnList.filter (keepPlace env)
    if stnList = [] then
      .error (.commandLine ("No " ++ src ++ " station met your criteria."))
    else
      .ok stnList

/-- The via set: the stations and the systems the user named with
`--via`.  In the source this is one Python set holding `Station` and
`System` objects; membership of a station tests identity, so we split the
set by kind and key both by id. -/
structure ViaSet where
  stations : Finset Nat
  systems : Finset Nat
deriving DecidableEq

/-- `len(viaSet)`: the size of the one Python set. -/
def viaCard (v : ViaSet) : Nat :=
  v.stations.card + v.systems.card

/-- `hop in viaSet or hop.system in viaSet` for a station `hop`. -/
def hopMatches (v : ViaSet) (s : Station) : Bool :=
  decide (s.stnId ∈ v.stations) || decide (s.system ∈ v.systems)

/-- A candidate route: its station sequence and its score.  The `Route`
class itself lives in the external `tradecalc` module; these are the two
fields `run_cmd.py` reads (`route.route`, `route.score`). -/
structure Route where
  route : List Station
  score : Rat
deriving DecidableEq, Repr

/-- The count `met` computed for one route inside `filterByVia`: the
number of stops after `viaStartPos` whose station or owning system is in
the via set. -/
def metCount (v : ViaSet) (viaStartPos : Nat) (r : Route) : Nat :=
  ((r.route.drop viaStartPos).filter (hopMatches v)).length

/-- The two shapes `filterByVia` can return: a bare list (the
empty-input early return at line 685) or the (routes, caution) pair
returned by the other paths. -/
inductive PyViaReturn where
  | bare (routes : List Route)
  | pair (routes : List Route) (caution : Option String)
deriving DecidableEq

/-- The caution message attached to a partial via match, naming the
match count. -/
def viaCaution (maxMet : Nat) : String :=
  "SORRY: No runs visited all of your via destinations. " ++
    "Listing runs that matched at least " ++ toString maxMet ++ "."

/-- The route-scanning loop of `filterByVia` (lines 690-703), written as
recursion over the remaining routes with the three accumulators of the
source: `matchedRoutes`, the `partialRoutes` dict (a map from met count
to routes, embedded as a function) and `maxMet`. -/
def viaLoop (v : ViaSet) (pos : Nat) :
    List Route → List Route → (Nat → List Route) → Nat →
    (List Route × (Nat → List Route) × Nat)
  | [], matched, buckets, maxMet => (matched, buckets, maxMet)
  | r :: rest, matched, buckets, maxMet =>
    let met := metCount v pos r
    if 0 < met then
      if viaCard v ≤ met then
        viaLoop v pos rest (matched ++ [r]) buckets maxMet
      else
        let buckets1 := if maxMet < met then Function.update buckets met [] else buckets
        if maxMet ≤ met then
          viaLoop v pos rest matched
            (Function.update buckets1 met (buckets1 met ++ [r])) met
        else
          viaLoop v pos rest matched buckets1 maxMet
    else
      viaLoop v pos rest matched buckets maxMet

/-- Embedding of `filterByVia(routes, viaSet, viaStartPos)` (run_cmd.py
lines 683-718). -/
def filterByVia (routes : List Route) (v : ViaSet) (viaStartPos : Nat) :
    Except RunError PyViaReturn :=
  if routes = [] then .ok (.bare [])
  else
    let (matched, buckets, maxMet) := viaLoop v viaStartPos routes [] (fun _ => []) 0
    if matched ≠ [] then .ok (.pair matched none)
    else if maxMet = 0 then
      .error (.noData "No routes were found which matched your via selections.")
    else
      .ok (.pair (buckets maxMet) (some (viaCaution maxMet)))

/-- The via set built from the `--via` arguments, split by place kind. -/
def viaSetOf (vias : List Place) : ViaSet where
  stations := (vias.filterMap fun p =>
    match p with | .station s => some s.stnId | .system _ => none).toFinset
  systems := (vias.filterMap fun p =>
    match p with | .system i => some i | .station _ => none).toFinset

/-- The `viaSystems` set of `validateRunArguments` (lines 584-594): the
owning system of each via station together with each via system. -/
def viaSystemsOf (vias : List Place) : Finset Nat :=
  (vias.map fun p =>
    match p with | .station s => s.system | .system i => i).toFinset

/-- Embedding of `checkAnchorNotInVia(hops, anchorName, place, viaSet)`
(lines 411-423): with exactly 2 hops, an anchor that is a station may not
itself be in the via set. -/
def checkAnchorNotInVia (hops : Nat) (anchorName : String)
    (place : Option Place) (v : ViaSet) : Except RunError Unit :=
  if hops ≠ 2 then .ok ()
  else
    match place with
    | some (.station s) =>
      if s.stnId ∈ v.stations then
        .error (.commandLine (s.name ++ " used in " ++ anchorName ++ " and --via with only 2 hops"))
      else .ok ()
    | _ => .ok ()

/-- The avoid set, split by place kind like the via set. -/
structure AvoidSet where
  stations : Finset Nat
  systems : Finset Nat
deriving DecidableEq

/-- The conflict test of the via/avoid loop (lines 600-604): a via
station conflicts when it or its system is avoided; a via system
conflicts when it is avoided. -/
def viaAvoidConflict (avoids : AvoidSet) : Place → Bool
  | .station s => decide (s.stnId ∈ avoids.stations) || decide (s.system ∈ avoids.systems)
  | .system i => decide (i ∈ avoids.systems)

/-- `adhocRoutePoints` (lines 613-619): route points (hops + 1) minus
the endpoints pinned by an explicit `--from` / `--to`. -/
def adhocRoutePoints (hops : Nat) (hasOrig hasDest : Bool) : Nat :=
  hops + 1 - ((if hasOrig then 1 else 0) + (if hasDest then 1 else 0))

/-- Embedding of the via-set validation of `validateRunArguments`
(lines 582-627): per-station price-data check, anchor-in-via checks,
via/avoid conflict check, then the route-length check comparing the
number of distinct via systems against the ad-hoc route points.  Returns
`adhocHops` on success. -/
def validateVias (hops : Nat) (origPlace destPlace : Option Place)
    (vias : List Place) (avoids : AvoidSet) : Except RunError Nat := do
  if vias.any (fun p =>
      match p with | .station s => s.itemCount == 0 | .system _ => false) then
    throw (.noData "No price data available for via station.")
  let v := viaSetOf vias
  let _ ← checkAnchorNotInVia hops "--from" origPlace v
  let _ ← checkAnchorNotInVia hops "--to" destPlace v
  if vias.any (viaAvoidConflict avoids) then
    throw (.commandLine "Via conflicts with avoid list")
  let adhoc := adhocRoutePoints hops origPlace.isSome destPlace.isSome
  if adhoc < (viaSystemsOf vias).card then
    throw (.commandLine "Route is not long enough for the list of --via destinations you gave.")
  return adhoc - 1

/-- The four ways the `--unique` validation block can end: fall through,
raise `CommandLineError`, execute `raise "<string>"` (a bare string
operand, not an exception class), or fail with an out-of-bounds index. -/
inductive UniqueOutcome where
  | ok
  | cmdError (msg : String)
  | stringRaise (msg : String)
  | indexError
deriving DecidableEq, Repr

/-- Embedding of the `--unique` validation block (lines 656-667).
`origins` and `destns` are the station-id lists; `stationCount` is
`len(tdb.stationByID)`.  The source's second and third raises use a bare
string operand (`raise("...")`), embedded as `stringRaise`; reading
`destns[1]` of a one-element list is embedded as `indexError`. -/
def uniqueChecks (unique : Bool) (hops stationCount : Nat)
    (origins destns : List Nat) (v : ViaSet) : UniqueOutcome :=
  if unique = true ∧ stationCount ≤ hops then
    .cmdError "Requested unique trip with more hops than there are stations."
  else if unique = true then
    if origins.length = 1 ∧ destns.length = 1 ∧ origins.head? = destns.head? then
      .cmdError "Cannot have same from and to with --unique"
    else if viaCard v ≠ 0 then
      let destCheck : UniqueOutcome :=
        if destns.length = 1 then
          match destns[1]? with
          | some d =>
            if decide (d ∈ v.stations) then
              .stringRaise "Cannot have --to station in --via list with --unique"
            else .ok
          | none => .indexError
        else .ok
      match origins with
      | [o] =>
        if decide (o ∈ v.stations) then
          .stringRaise "Cannot have --from station in --via list with --unique"
        else destCheck
      | _ => destCheck
    else .ok
  else .ok

/-- The two queries `expandForJumps` makes of the trade database:
systems within a light-year radius of a system, and the stations of a
system.  The database is an external collaborator (`tradedb`), so it is a
parameter of the embedding. -/
structure TradeDBModel where
  systemsInRange : Rat → Nat → Finset Nat
  stationsOf : Nat → List Station

/-- The command-environment fields read by `expandForJumps`. -/
structure ExpandEnv where
  emptyLyPer : Rat
  maxLyPer : Rat
  avoidStations : Finset Nat
  avoidSystems : Finset Nat

/-- One ring of the jump expansion (lines 353-357).  The Python double
loop tests `dest not in origSys and dest not in avoidPlaces` before each
add; over a whole ring this collects exactly the neighbours of the
frontier that are neither already collected nor avoided, independently of
set-iteration order. -/
def ringStep (adj : Nat → Finset Nat) (avoidSystems : Finset Nat)
    (origSys frontier : Finset Nat) : Finset Nat × Finset Nat :=
  let newSystems := (frontier.biUnion adj) \ (origSys ∪ avoidSystems)
  (origSys ∪ newSystems, newSystems)

/-- The ring loop of `expandForJumps` (lines 342-357): up to `jumps`
rings, stopping early when the frontier empties. -/
def expandLoop (adj : Nat → Finset Nat) (avoidSystems : Finset Nat) :
    Nat → Finset Nat → Finset Nat → Finset Nat
  | 0, origSys, _ => origSys
  | n + 1, origSys, frontier =>
    if frontier = ∅ then origSys
    else
      let step := ringStep adj avoidSystems origSys frontier
      expandLoop adj avoidSystems n step.1 step.2

/-- The seed systems of the expansion (lines 324-329): the owning system
of each origin station and each origin system. -/
def originSystems (origins : List Place) : Finset Nat :=
  (origins.map fun p =>
    match p with | .station s => s.system | .system i => i).toFinset

/-- Embedding of `expandForJumps(tdb, cmdenv, origins, jumps, srcName)`
(lines 308-380).  With no jump budget, the origin stations and the
stations of origin systems are returned unfiltered; otherwise the ring
expansion runs at the empty-hold range when set (non-zero), else the
laden range, and the collected systems are flattened to their stations
with price data that are not avoided. -/
def expandForJumps (tdb : TradeDBModel) (env : ExpandEnv)
    (origins : List Place) (jumps : Nat) : Finset Station :=
  if jumps = 0 then
    ((origins.filterMap fun p =>
        match p with | .station s => some s | .system _ => none) ++
      (origins.filterMap fun p =>
        match p with | .system i => some i | .station _ => none).flatMap
        tdb.stationsOf).toFinset
  else
    let maxLyPer := if env.emptyLyPer ≠ 0 then env.emptyLyPer else env.maxLyPer
    let adj := tdb.systemsInRange maxLyPer
    let origSys := originSystems origins
    let finalSys := expandLoop adj env.avoidSystems jumps origSys origSys
    finalSys.biUnion fun sysId =>
      ((tdb.stationsOf sysId).filter fun stn =>
        decide (stn.itemCount ≠ 0) && !(decide (stn.stnId ∈ env.avoidStations))).toFinset

/-- Modelled from the spec: the route comparison (`Route.__lt__`) lives
in the external `tradecalc` module.  Per the spec the score is a
total-ordering key under which the best route sorts first, so
`routes.sort()` is embedded as a stable sort placing higher scores
first. -/
def scoreGE (a b : Route) : Prop :=
  b.score ≤ a.score

instance : DecidableRel scoreGE := fun a b => Rat.instDecidableLe b.score a.score

instance : IsTotal Route scoreGE :=
  ⟨fun a b => le_total b.score a.score⟩

instance : IsTrans Route scoreGE :=
  ⟨fun _ _ _ h1 h2 => le_trans h2 h1⟩

/-- `routes.sort()`: stable sort, best (highest score) first.
(`insertionSort` is a stable sort, hence extensionally the same function
as Python's stable `list.sort`.) -/
def sortByScore (routes : List Route) : List Route :=
  routes.insertionSort scoreGE

/-- Rank-sortedness, best first. -/
def sortedByScore (routes : List Route) : Prop :=
  routes.Sorted scoreGE

instance (routes : List Route) : Decidable (sortedByScore routes) :=
  inferInstanceAs (Decidable (List.Pairwise scoreGE routes))

/-- `route.route[-1].system is goalSystem`: the route currently ends in
the goal system.  (Routes carry at least their seed station, so the
station list is never empty in the loop; an empty list maps to false.) -/
def goalKey (g : Nat) (r : Route) : Bool :=
  match r.route.getLast? with
  | some stn => stn.system == g
  | none => false

/-- The sort key of the goal bias (line 821-823): 0 for routes ending in
the goal system, 1 otherwise. -/
def goalNum (g : Nat) (r : Route) : Nat :=
  if goalKey g r then 0 else 1

/-- Comparison for the goal-bias stable sort. -/
def goalPref (g : Nat) (a b : Route) : Prop :=
  goalNum g a ≤ goalNum g b

instance (g : Nat) : DecidableRel (goalPref g) :=
  fun a b => Nat.decLe (goalNum g a) (goalNum g b)

instance (g : Nat) : IsTotal Route (goalPref g) :=
  ⟨fun a b => Nat.le_total (goalNum g a) (goalNum g b)⟩

instance (g : Nat) : IsTrans Route (goalPref g) :=
  ⟨fun _ _ _ h1 h2 => Nat.le_trans h1 h2⟩

/-- `routes.sort(key=...)` of the goal bias: stable sort moving
goal-ending routes to the front. -/
def goalSort (g : Nat) (routes : List Route) : List Route :=
  routes.insertionSort (goalPref g)

/-- `routes[0].route[-1].system is goalSystem`: does the top candidate
end in the goal system?  (The empty case cannot arise at the call site,
which guards on a non-empty list.) -/
def goalReachedTop (g : Nat) (l : List Route) : Bool :=
  match l.head? with
  | some top => goalKey g top
  | none => false

/-- The pop loop of the score-ratio cut (lines 779-780) viewed from the
worst end: the input is the reversed route list; pop while the first
element scores below the threshold.  Reading `routes[-1]` of an emptied
list raises `IndexError`, embedded as `none`. -/
def popBelowRev (threshold : Rat) : List Route → Option (List Route)
  | [] => none
  | r :: rest =>
    if r.score < threshold then popBelowRev threshold rest
    else some (r :: rest)

/-- `while routes[-1].score < threshold: routes.pop()` on the list
itself. -/
def pruneBelow (threshold : Rat) (routes : List Route) : Option (List Route) :=
  (popBelowRev threshold routes.reverse).map List.reverse

/-- The configuration fields the hop loop reads. -/
structure RunConfig where
  numHops : Nat
  maxRoutes : Nat
  pruneScores : Rat
  pruneHops : Nat
  goalSystem : Option Nat
deriving DecidableEq

/-- Result of the beam-pruning step of one hop, instrumented with the
lists the two cuts were applied to: `topNCuts` holds the list as it
stood when the top-N truncation was taken, `ratioCuts` the list as it
stood (post `routes.sort()`) when the score-ratio pops began. -/
structure PruneOut where
  routes : List Route
  topNCuts : List (List Route)
  ratioCuts : List (List Route)
deriving DecidableEq

/-- Embedding of the beam-pruning step of the hop loop (lines 771-781):
the top-N truncation (from the second hop on, when `--max-routes` is
set), then the score-ratio cut (from hop `pruneHops` on, when more than
10 candidates survive): sort, take `threshold = bestScore * pruneMod`,
and pop from the worst end while below threshold.  `none` embeds the
`IndexError` of popping the list empty. -/
def prunePass (cfg : RunConfig) (hopNo : Nat) (routes : List Route) :
    Option PruneOut :=
  let (routes1, tlog) :=
    if cfg.maxRoutes ≠ 0 ∧ 1 ≤ hopNo then (routes.take cfg.maxRoutes, [routes])
    else (routes, [])
  let pruneMod := cfg.pruneScores / 100
  if pruneMod ≠ 0 ∧ cfg.pruneHops ≤ hopNo + 1 ∧ 10 < routes1.length then
    match sortByScore routes1 with
    | [] => none
    | best :: rest =>
      match pruneBelow (best.score * pruneMod) (best :: rest) with
      | none => none
      | some kept => some ⟨kept, tlog, [best :: rest]⟩
  else some ⟨routes1, tlog, []⟩

/-- Outcome of the hop loop, instrumented: the final route list, the
number of hop iterations executed, the hop index at which the goal
early-exit fired (if it did), whether the loop broke on an empty
expansion, and the lists each cut / goal sort was applied to. -/
structure LoopOut where
  routes : List Route
  hopsRun : Nat
  goalReachedAt : Option Nat
  brokeEmpty : Bool
  topNCuts : List (List Route)
  ratioCuts : List (List Route)
  goalSorts : List (List Route)
deriving DecidableEq

/-- The hop loop of `run` (lines 764-826), by recursion on the remaining
hop count.  `expand` stands for `calc.getBestHops` of the external
`tradecalc` module; the destination restriction passed to it is a
function of the hop index and the fixed configuration, so it is folded
into the `expand` parameter.  Each iteration: beam pruning, expansion,
the empty-expansion break (past hop 0), then — when a goal system is set
and routes survive — the goal-bias sort and early exit. -/
def hopLoopAux (cfg : RunConfig) (expand : Nat → List Route → List Route) :
    Nat → Nat → List Route → Option LoopOut
  | 0, hopNo, routes => some ⟨routes, hopNo, none, false, [], [], []⟩
  | remaining + 1, hopNo, routes =>
    match prunePass cfg hopNo routes with
    | none => none
    | some pruned =>
      let newRoutes := expand hopNo pruned.routes
      if newRoutes = [] ∧ 0 < hopNo then
        some ⟨pruned.routes, hopNo + 1, none, true,
              pruned.topNCuts, pruned.ratioCuts, []⟩
      else
        match cfg.goalSystem with
        | some g =>
          if newRoutes = [] then
            (hopLoopAux cfg expand remaining (hopNo + 1) newRoutes).map fun out =>
              { out with topNCuts := pruned.topNCuts ++ out.topNCuts,
                         ratioCuts := pruned.ratioCuts ++ out.ratioCuts }
          else
            let sortedG := goalSort g newRoutes
            if goalReachedTop g sortedG then
              some ⟨sortedG, hopNo + 1, some hopNo, false,
                    pruned.topNCuts, pruned.ratioCuts, [sortedG]⟩
            else
              (hopLoopAux cfg expand remaining (hopNo + 1) sortedG).map fun out =>
                { out with topNCuts := pruned.topNCuts ++ out.topNCuts,
                           ratioCuts := pruned.ratioCuts ++ out.ratioCuts,
                           goalSorts := sortedG :: out.goalSorts }
        | none =>
          (hopLoopAux cfg expand remaining (hopNo + 1) newRoutes).map fun out =>
            { out with topNCuts := pruned.topNCuts ++ out.topNCuts,
                       ratioCuts := pruned.ratioCuts ++ out.ratioCuts }

/-- The hop loop entry point: `for hopNo in range(numHops)` starting
from the seeded routes. -/
def hopLoop (cfg : RunConfig) (expand : Nat → List Route → List Route)
    (routes : List Route) : Option LoopOut :=
  hopLoopAux cfg expand cfg.numHops 0 routes

/-- The hop loop specialized to disabled score pruning
(`pruneScores = 0`, the argument default): the same iteration with the
beam step reduced to the conditional top-N truncation.  This variant is
free of rational arithmetic and serves to evaluate concrete runs; its
agreement with `hopLoopAux` is proved below. -/
def hopLoopZeroAux (cfg : RunConfig) (expand : Nat → List Route → List Route) :
    Nat → Nat → List Route → LoopOut
  | 0, hopNo, routes => ⟨routes, hopNo, none, false, [], [], []⟩
  | remaining + 1, hopNo, routes =>
    let pruned : PruneOut :=
      if cfg.maxRoutes ≠ 0 ∧ 1 ≤ hopNo then ⟨routes.take cfg.maxRoutes, [routes], []⟩
      else ⟨routes, [], []⟩
    let newRoutes := expand hopNo pruned.routes
    if newRoutes = [] ∧ 0 < hopNo then
      ⟨pruned.routes, hopNo + 1, none, true, pruned.topNCuts, pruned.ratioCuts, []⟩
    else
      match cfg.goalSystem with
      | some g =>
        if newRoutes = [] then
          let out := hopLoopZeroAux cfg expand remaining (hopNo + 1) newRoutes
          { out with topNCuts := pruned.topNCuts ++ out.topNCuts,
                     ratioCuts := pruned.ratioCuts ++ out.ratioCuts }
        else
          let sortedG := goalSort g newRoutes
          if goalReachedTop g sortedG then
            ⟨sortedG, hopNo + 1, some hopNo, false,
             pruned.topNCuts, pruned.ratioCuts, [sortedG]⟩
          else
            let out := hopLoopZeroAux cfg expand remaining (hopNo + 1) sortedG
            { out with topNCuts := pruned.topNCuts ++ out.topNCuts,
                       ratioCuts := pruned.ratioCuts ++ out.ratioCuts,
                       goalSorts := sortedG :: out.goalSorts }
      | none =>
        let out := hopLoopZeroAux cfg expand remaining (hopNo + 1) newRoutes
        { out with topNCuts := pruned.topNCuts ++ out.topNCuts,
                   ratioCuts := pruned.ratioCuts ++ out.ratioCuts }

/-- How the tail of `run` can end: a sorted result plus the accumulated
advisory text, a raised error, or the tuple-unpacking failure that a
bare-list return of `filterByVia` would cause at line 835. -/
inductive TailResult where
  | ok (routes : List Route) (exception : String)
  | err (e : RunError)
  | unpackMismatch
deriving DecidableEq

/-- Embedding of the tail of `run` (lines 828-842): raise `NoDataError`
when no routes survived; otherwise apply the via filter when a via set
is present — its (routes, caution) pair is unpacked, so a bare-list
return would fail, embedded as `unpackMismatch` — then rank-sort. -/
def runTail (v : ViaSet) (viaStartPos : Nat) (exception : String)
    (routes : List Route) : TailResult :=
  if routes = [] then
    .err (.noData "No profitable trades matched your critera, or price data along the route is missing.")
  else if viaCard v ≠ 0 then
    match filterByVia routes v viaStartPos with
    | .error e => .err e
    | .ok (.pair rs caution) =>
      let exception2 :=
        match caution with
        | some c => exception ++ c ++ "\n"
        | none => exception
      .ok (sortByScore rs) exception2
    | .ok (.bare _) => .unpackMismatch
  else .ok (sortByScore routes) exception

/-- The environment and station of the C3 counterexample: the station
has priced commodities and an acceptable pad but no black market, and
the environment demands one. -/
def c3Env : RunEnv := ⟨[], true, 0, 0⟩

/-- Station failing only the black-market eligibility check. -/
def c3Stn : Station := ⟨2, 20, "Beta Port", 5, 'L', 'N', 100, 1⟩

/-- Via stations of the C7 counterexample, both in system 50. -/
def c7V1 : Station := ⟨7, 50, "Via One", 3, 'L', 'Y', 1, 1⟩

/-- Second via station of the C7 counterexample, same system. -/
def c7V2 : Station := ⟨8, 50, "Via Two", 3, 'L', 'Y', 1, 1⟩

/-- A third via station in its own system, for the C7 witness. -/
def c7V3 : Station := ⟨12, 51, "Via Three", 3, 'L', 'Y', 1, 1⟩

/-- The pinned origin of the C7 counterexample. -/
def c7Anchor : Station := ⟨9, 60, "Anchor", 3, 'L', 'Y', 1, 1⟩

/-- Collaborator data for the C6 witness: one system (60) holding a
priced station and an avoided station, no neighbours. -/
def c6Tdb : TradeDBModel :=
  ⟨fun _ _ => ∅, fun i => if i = 60 then
    [⟨4, 60, "Good", 3, 'L', 'Y', 1, 1⟩, ⟨5, 60, "Avoided", 3, 'L', 'Y', 1, 1⟩]
   else []⟩

/-- Environment for the C6 witness: station 5 is avoided. -/
def c6Env : ExpandEnv := ⟨0, 10, {5}, ∅⟩

/-- The config of the C1 and C2 counterexamples: `--max-routes 1`, no
score pruning, two hops. -/
def c1Cfg : RunConfig := ⟨2, 1, 0, 3, none⟩

/-- The worse route of the C1 counterexample. -/
def c1Low : Route := ⟨[], 1⟩

/-- The better route of the C1 counterexample. -/
def c1High : Route := ⟨[], 2⟩

/-- Worse route delivered by the hop-0 expansion of the C2
counterexample run. -/
def c2Low : Route := ⟨[], 1⟩

/-- Better route delivered by the hop-0 expansion of the C2
counterexample run. -/
def c2High : Route := ⟨[], 2⟩

/-- Route delivered by the hop-1 expansion of the C2 counterexample
run. -/
def c2Done : Route := ⟨[], 3⟩

/-- Seed route of the C2 counterexample run. -/
def c2Seed : Route := ⟨[], 0⟩

/-- Expansion of the C2 counterexample run: hop 0 produces the two
routes worse-first (expansion output need not be rank-ordered), hop 1
produces one continuation. -/
def c2Expand : Nat → List Route → List Route :=
  fun h _ => if h = 0 then [c2Low, c2High] else [c2Done]

/-- Config of the C2 counterexample run: two hops, `--max-routes 1`, no
score pruning. -/
def c2Cfg : RunConfig := ⟨2, 1, 0, 3, none⟩

/-- A station inside the goal system of the C5 witness run. -/
def c5StG : Station := ⟨1, 10, "G", 5, 'L', 'Y', 1, 1⟩

/-- A station outside the goal system of the C5 witness run. -/
def c5StO : Station := ⟨2, 20, "O", 5, 'L', 'Y', 1, 1⟩

/-- Goal-reaching route of the C5 witness run (lower score). -/
def c5Goal : Route := ⟨[c5StG], 4⟩

/-- Non-goal route of the C5 witness run (higher score). -/
def c5Other : Route := ⟨[c5StO], 9⟩

/-- Seed route of the C5 witness run. -/
def c5Seed : Route := ⟨[c5StO], 0⟩

/-- Expansion of the C5 witness run: one hop suffices to reach the
goal system (non-goal route listed first). -/
def c5Expand : Nat → List Route → List Route :=
  fun _ _ => [c5Other, c5Goal]

/-- Config of the C5 witness run: two hops, goal system 10. -/
def c5Cfg : RunConfig := ⟨2, 0, 0, 3, some 10⟩

/-- The met counts that feed `maxMet`: counts of routes that matched
some via stop but fewer times than the via-set size. -/
def metsBelow (v : ViaSet) (pos : Nat) (routes : List Route) : List Nat :=
  (routes.map (metCount v pos)).filter
    (fun k => decide (0 < k) && decide (k < viaCard v))

/-- The final `maxMet` of the `filterByVia` scan. -/
def maxMetOf (v : ViaSet) (pos : Nat) (routes : List Route) : Nat :=
  (metsBelow v pos routes).foldl max 0

/-- The number of distinct via entries a route visits after the start
position — the quantity the claim speaks of, stated for comparison with
the per-stop count the source computes. -/
def specEntriesVisited (v : ViaSet) (pos : Nat) (r : Route) : Nat :=
  (v.stations.filter
    (fun i => (r.route.drop pos).any (fun s => s.stnId == i))).card +
  (v.systems.filter
    (fun i => (r.route.drop pos).any (fun s => s.system == i))).card

/-- Origin station of the C4 routes. -/
def c4StC : Station := ⟨3, 30, "C", 5, 'L', 'Y', 1, 1⟩

/-- Via station (id 1) of the C4 data. -/
def c4StA : Station := ⟨1, 10, "A", 5, 'L', 'Y', 1, 1⟩

/-- The C4 via set: two stations, ids 1 and 2. -/
def c4V : ViaSet := ⟨{1, 2}, ∅⟩

/-- The C4 counterexample route: it stops at via station 1 twice and
never visits via station 2. -/
def c4Route : Route := ⟨[c4StC, c4StA, c4StA], 5⟩

/-- The C4 witness route: one stop at via station 1. -/
def c4WRoute : Route := ⟨[c4StC, c4StA], 5⟩

/-! ### Theorems -/

/-- C8: for every source label, environment and station list,
`filterStationSet` returns its input list unchanged and raises no error.
The suitability-filtered list it computes internally is discarded, so the
post-validation filtering of the `--from`, `--to` and `--via` station
sets has no effect. -/
theorem c8_filterStationSet_returns_input (src : String) (env : RunEnv)
    (stnList : List Place) :
    filterStationSet src env stnList = .ok stnList := by
  unfold filterStationSet
  split
  · rfl
  · rename_i h
    simp only [if_neg h]

/-- C3 counterexample: the station fails the black-market check, yet
`checkStationSuitability` called with the explicit `--from` context
returns `False` instead of raising — the source exempts `--from` from
the black-market, max-ls and age raises (lines 449, 458, 467). -/
theorem c3_counterexample :
    c3Env.blackMarket = true ∧ c3Stn.blackMarket ≠ 'Y' ∧
    c3Stn.itemCount ≠ 0 ∧
    checkStationSuitability c3Env c3Stn (some "--from") = .ok false :=
  ⟨rfl, by decide, by decide, rfl⟩

/-- C3 (amended): a station failing the priced-commodities or pad-size
check makes the suitability check raise under any truthy source context
(`--from` included); a station failing only the black-market, max-ls or
age checks makes it raise under any truthy context other than `--from`,
while with the `--from` context it behaves exactly as with no context
and returns `False`; with no context it never raises. -/
theorem c3_amended (env : RunEnv) (stn : Station) :
    (∃ b, checkStationSuitability env stn none = .ok b) ∧
    (stn.itemCount = 0 → ∀ src, srcTruthy src = true →
      ∃ m, checkStationSuitability env stn src = .error (.noData m)) ∧
    (stn.itemCount ≠ 0 → env.padSize ≠ [] → stn.checkPadSize env.padSize = false →
      ∀ src, srcTruthy src = true →
        ∃ m, checkStationSuitability env stn src = .error (.commandLine m)) ∧
    (stn.itemCount ≠ 0 → ¬(env.padSize ≠ [] ∧ stn.checkPadSize env.padSize = false) →
      checkStationSuitability env stn (some "--from") =
        checkStationSuitability env stn none) ∧
    (∀ s, s ≠ "--from" → s ≠ "" →
      checkStationSuitability env stn none = .ok false →
        ∃ e, checkStationSuitability env stn (some s) = .error e) := by
  refine ⟨?_, ?_, ?_, ?_, ?_⟩
  · unfold checkStationSuitability
    split_ifs <;> simp_all [srcTruthy]
  · intro h0 src hsrc
    unfold checkStationSuitability
    simp [h0, hsrc]
  · intro h0 hpad hfail src hsrc
    unfold checkStationSuitability
    simp [h0, hsrc, hpad, hfail]
  · intro h0 hpad
    unfold checkStationSuitability
    simp only [srcTruthy, if_neg h0]
    rw [if_neg hpad, if_neg hpad]
    split_ifs <;> simp_all
  · intro s hs hs' hfalse
    have hsrc : srcTruthy (some s) = true := by
      simp [srcTruthy, hs']
    unfold checkStationSuitability at hfalse ⊢
    simp only [srcTruthy, hs, hs'] at hfalse ⊢
    split_ifs at hfalse ⊢ <;> simp_all

/-- C9: in the `--unique` validation block, with a via set present:
a single origin that is in the via set hits a `raise` whose operand is a
bare string, not a `CommandLineError`; a single destination makes the
check read `destns[1]` of a one-element list, an out-of-bounds access;
and under the block's remaining inputs no `CommandLineError` is ever
produced on these paths. -/
theorem c9_unique_via_block (hops n : Nat) (origins destns : List Nat)
    (v : ViaSet) (hn : hops < n) (hvia : viaCard v ≠ 0)
    (hdiff : ¬(origins.length = 1 ∧ destns.length = 1 ∧ origins.head? = destns.head?)) :
    (∀ o, origins = [o] → o ∈ v.stations →
      uniqueChecks true hops n origins destns v =
        .stringRaise "Cannot have --from station in --via list with --unique") ∧
    (destns.length = 1 → (∀ o, origins = [o] → o ∉ v.stations) →
      uniqueChecks true hops n origins destns v = .indexError) ∧
    (∀ m, uniqueChecks true hops n origins destns v ≠ .cmdError m) := by
  have h1 : ¬(true = true ∧ n ≤ hops) := by omega
  have h1' : ¬ n ≤ hops := by omega
  refine ⟨?_, ?_, ?_⟩
  · intro o ho hmem
    subst ho
    have hne : ¬(destns.length = 1 ∧ some o = destns.head?) := by
      rintro ⟨ha, hb⟩
      exact hdiff (by simp [ha, hb])
    simp [uniqueChecks, h1', hvia, hmem, hne]
  · intro hd hno
    have h2 : destns[1]? = none := by
      apply List.getElem?_eq_none
      omega
    match origins with
    | [] => simp [uniqueChecks, h1', hvia, hd, h2]
    | [o] =>
      have hmem : o ∉ v.stations := hno o rfl
      have hne : ¬(some o = destns.head?) := fun he => hdiff (by simp [hd, he])
      simp [uniqueChecks, h1', hvia, hd, h2, hmem, hne]
    | o₁ :: o₂ :: rest => simp [uniqueChecks, h1', hvia, hd, h2]
  · intro m
    unfold uniqueChecks
    rw [if_neg h1, if_pos rfl, if_neg hdiff, if_pos hvia]
    match origins with
    | [] => split_ifs <;> (try split) <;> (try split_ifs) <;> simp
    | [o] => split_ifs <;> (try split) <;> (try split_ifs) <;> simp <;> split_ifs <;> simp
    | o₁ :: o₂ :: rest => split_ifs <;> (try split) <;> (try split_ifs) <;> simp

/-- C7 counterexample: one hop, origin pinned by `--from`, a via set of
two stations (sharing a system).  The via-set size (2) exceeds the
number of hops not pinned (0, and even the looser count of unpinned
route points, 1), so per the claim a `CommandLineError` must be raised —
but the validation succeeds, because the source compares the number of
distinct via *systems* (1 here) against the ad-hoc route points. -/
theorem c7_counterexample :
    validateVias 1 (some (.station c7Anchor)) none
        [.station c7V1, .station c7V2] ⟨∅, ∅⟩ = .ok 0 ∧
    viaCard (viaSetOf [.station c7V1, .station c7V2]) = 2 ∧
    1 - 1 < 2 ∧ 1 < 2 :=
  ⟨rfl, by decide, by decide, by decide⟩

/-- C7 (amended): when the per-via price-data check, the anchor-in-via
checks and the via/avoid conflict check all pass, the via validation
raises a `CommandLineError` if and only if the number of *distinct via
systems* exceeds `hops + 1` minus the number of endpoints pinned by an
explicit origin/destination; otherwise it is accepted (returning the
ad-hoc hop count). -/
theorem c7_amended (hops : Nat) (origPlace destPlace : Option Place)
    (vias : List Place) (avoids : AvoidSet)
    (hitem : vias.any (fun p => match p with
        | .station s => s.itemCount == 0 | .system _ => false) = false)
    (hfrom : checkAnchorNotInVia hops "--from" origPlace (viaSetOf vias) = .ok ())
    (hto : checkAnchorNotInVia hops "--to" destPlace (viaSetOf vias) = .ok ())
    (hav : vias.any (viaAvoidConflict avoids) = false) :
    (adhocRoutePoints hops origPlace.isSome destPlace.isSome < (viaSystemsOf vias).card →
      validateVias hops origPlace destPlace vias avoids =
        .error (.commandLine "Route is not long enough for the list of --via destinations you gave.")) ∧
    ((viaSystemsOf vias).card ≤ adhocRoutePoints hops origPlace.isSome destPlace.isSome →
      validateVias hops origPlace destPlace vias avoids =
        .ok (adhocRoutePoints hops origPlace.isSome destPlace.isSome - 1)) := by
  constructor
  · intro hlt
    simp [validateVias, hitem, hfrom, hto, hav, hlt]
    rfl
  · intro hle
    simp [validateVias, hitem, hfrom, hto, hav, Nat.not_lt.mpr hle]
    rfl

/-- C7 witness: three hops, no pinned endpoints, two via stations in two
systems: 2 distinct via systems ≤ 4 ad-hoc route points, accepted with
`adhocHops = 3`. -/
theorem c7_amended_witness :
    validateVias 3 none none [.station c7V1, .station c7V3] ⟨∅, ∅⟩ = .ok 3 :=
  (c7_amended 3 none none [.station c7V1, .station c7V3] ⟨∅, ∅⟩
    (by decide) rfl rfl (by decide)).2 (by decide)

/-- C3 witness: the same black-market-failing station with the `--to`
context does raise. -/
theorem c3_amended_witness :
    ∃ e, checkStationSuitability c3Env c3Stn (some "--to") = .error e :=
  (c3_amended c3Env c3Stn).2.2.2.2 "--to" (by decide) (by decide) rfl

/-- C9 witness: origin station 9 not in the via set, one destination:
the block ends in the out-of-bounds read of `destns[1]`. -/
theorem c9_unique_via_block_witness :
    uniqueChecks true 2 100 [9] [5] ⟨{1, 2}, ∅⟩ = .indexError :=
  (c9_unique_via_block 2 100 [9] [5] ⟨{1, 2}, ∅⟩ (by decide) (by decide)
      (by decide)).2.1 (by decide)
    (by
      intro o ho
      injection ho with h1 _
      subst h1
      decide)

/-- A non-empty route list never takes the bare-list return of
`filterByVia`: that return exists only for empty input. -/
theorem filterByVia_ne_bare (v : ViaSet) (pos : Nat) {routes : List Route}
    (h : routes ≠ []) (l : List Route) :
    filterByVia routes v pos ≠ .ok (.bare l) := by
  unfold filterByVia
  rw [if_neg h]
  rcases hvl : viaLoop v pos routes [] (fun _ => []) 0 with ⟨matched, buckets, maxMet⟩
  dsimp only
  split_ifs <;> simp

/-- C10: `filterByVia` applied to an empty route list returns a bare
empty list rather than a (routes, caution) pair; but the tail of `run`
raises `NoDataError` whenever the surviving route list is empty before
calling `filterByVia`, and on non-empty input `filterByVia` never
returns the bare shape, so the call site's tuple unpacking never
fails. -/
theorem c10_via_unpack_safe :
    (∀ (v : ViaSet) (pos : Nat), filterByVia [] v pos = .ok (.bare [])) ∧
    (∀ (v : ViaSet) (pos : Nat) (exception : String),
      runTail v pos exception [] =
        .err (.noData "No profitable trades matched your critera, or price data along the route is missing.")) ∧
    (∀ (v : ViaSet) (pos : Nat) (routes : List Route) (l : List Route),
      routes ≠ [] → filterByVia routes v pos ≠ .ok (.bare l)) ∧
    (∀ (v : ViaSet) (pos : Nat) (exception : String) (routes : List Route),
      runTail v pos exception routes ≠ .unpackMismatch) := by
  refine ⟨fun v pos => rfl, fun v pos exception => rfl,
          fun v pos routes l h => filterByVia_ne_bare v pos h l, ?_⟩
  intro v pos exception routes
  unfold runTail
  split_ifs with h1 h2
  · simp
  · rcases hf : filterByVia routes v pos with e | r
    · simp [hf]
    · rcases r with rs | ⟨rs, caution⟩
      · exact absurd hf (filterByVia_ne_bare v pos h1 rs)
      · rcases caution with _ | c <;> simp [hf]
  · simp

/-- C10 witness: a concrete one-route tail run with a via set present
does not hit the unpack mismatch. -/
theorem c10_via_unpack_safe_witness :
    runTail ⟨{1, 2}, ∅⟩ 1 "" [⟨[⟨3, 30, "C", 5, 'L', 'Y', 100, 1⟩], 5⟩] ≠
      .unpackMismatch :=
  c10_via_unpack_safe.2.2.2 ⟨{1, 2}, ∅⟩ 1 "" [⟨[⟨3, 30, "C", 5, 'L', 'Y', 100, 1⟩], 5⟩]

/-- C6: for any origin set and jump budget of at least one, the ring
expansion of `expandForJumps` never re-collects a system (each ring's
newly collected frontier is disjoint from everything collected before),
never adds an avoided system during expansion (each frontier is disjoint
from the avoid set, so the whole expansion collects no avoided system
beyond the seeds), and the final flattening to stations contains only
stations with priced inventory that are not avoided. -/
theorem c6_expandForJumps (tdb : TradeDBModel) (env : ExpandEnv)
    (origins : List Place) (jumps : Nat) (hj : 1 ≤ jumps) :
    (∀ (adj : Nat → Finset Nat) (origSys frontier : Finset Nat),
      (ringStep adj env.avoidSystems origSys frontier).2 ∩ origSys = ∅ ∧
      (ringStep adj env.avoidSystems origSys frontier).2 ∩ env.avoidSystems = ∅) ∧
    (∀ (adj : Nat → Finset Nat) (n : Nat) (origSys frontier : Finset Nat),
      expandLoop adj env.avoidSystems n origSys frontier ∩ env.avoidSystems ⊆ origSys) ∧
    (∀ stn ∈ expandForJumps tdb env origins jumps,
      stn.itemCount ≠ 0 ∧ stn.stnId ∉ env.avoidStations) := by
  have hring : ∀ (adj : Nat → Finset Nat) (origSys frontier : Finset Nat),
      (ringStep adj env.avoidSystems origSys frontier).2 ∩ origSys = ∅ ∧
      (ringStep adj env.avoidSystems origSys frontier).2 ∩ env.avoidSystems = ∅ := by
    intro adj origSys frontier
    constructor <;>
      (ext x
       simp only [ringStep, Finset.mem_inter, Finset.mem_sdiff, Finset.mem_union,
         Finset.not_mem_empty, iff_false, not_and]
       tauto)
  refine ⟨hring, ?_, ?_⟩
  · intro adj n
    induction n with
    | zero =>
      intro origSys frontier
      simp only [expandLoop]
      exact Finset.inter_subset_left
    | succ k ih =>
      intro origSys frontier
      unfold expandLoop
      split_ifs with hf
      · exact Finset.inter_subset_left
      · intro x hx
        have hx2 : x ∈ expandLoop adj env.avoidSystems k
            (ringStep adj env.avoidSystems origSys frontier).1
            (ringStep adj env.avoidSystems origSys frontier).2 ∩ env.avoidSystems := hx
        have hxav : x ∈ env.avoidSystems := (Finset.mem_inter.mp hx2).2
        have hx3 := ih (ringStep adj env.avoidSystems origSys frontier).1
          (ringStep adj env.avoidSystems origSys frontier).2 hx2
        have hx4 : x ∈ origSys ∪ (ringStep adj env.avoidSystems origSys frontier).2 := by
          simpa [ringStep] using hx3
        rcases Finset.mem_union.mp hx4 with h | h
        · exact h
        · exfalso
          have := (hring adj origSys frontier).2
          have : x ∈ (ringStep adj env.avoidSystems origSys frontier).2 ∩ env.avoidSystems :=
            Finset.mem_inter.mpr ⟨h, hxav⟩
          simp_all
  · intro stn hmem
    unfold expandForJumps at hmem
    rw [if_neg (by omega)] at hmem
    simp only [Finset.mem_biUnion, List.mem_toFinset, List.mem_filter,
      Bool.and_eq_true, Bool.not_eq_true', decide_eq_true_eq,
      decide_eq_false_iff_not] at hmem
    obtain ⟨sysId, _, _, hcond⟩ := hmem
    exact ⟨hcond.1, hcond.2⟩

/-- C6 witness: expanding one jump from system 60 yields station 4,
which has priced inventory and is not avoided. -/
theorem c6_expandForJumps_witness :
    (⟨4, 60, "Good", 3, 'L', 'Y', 1, 1⟩ : Station).itemCount ≠ 0 ∧
    (⟨4, 60, "Good", 3, 'L', 'Y', 1, 1⟩ : Station).stnId ∉ c6Env.avoidStations :=
  (c6_expandForJumps c6Tdb c6Env [.system 60] 1 (by decide)).2.2
    ⟨4, 60, "Good", 3, 'L', 'Y', 1, 1⟩ (by decide)

/-- The pop loop on a reversed list that ends with an element at or
above the threshold stops no later than that element: it returns a
suffix still ending in it, no longer than the input. -/
theorem popBelowRev_append (t : Rat) (b : Route) (hb : ¬ b.score < t) :
    ∀ l : List Route, ∃ m, popBelowRev t (l ++ [b]) = some (m ++ [b]) ∧
      m.length ≤ l.length := by
  intro l
  induction l with
  | nil => exact ⟨[], by simp [popBelowRev, hb], le_refl _⟩
  | cons x xs ih =>
    by_cases hx : x.score < t
    · obtain ⟨m, hm, hl⟩ := ih
      refine ⟨m, by simp [popBelowRev, hx, hm], ?_⟩
      simp only [List.length_cons]
      omega
    · exact ⟨x :: xs, by simp [popBelowRev, hx], le_refl _⟩

/-- The score-ratio pop loop on a list whose first element is at or
above the threshold succeeds, keeps that element first, and never grows
the list. -/
theorem pruneBelow_cons (t : Rat) (b : Route) (rest : List Route)
    (hb : ¬ b.score < t) :
    ∃ kept, pruneBelow t (b :: rest) = some kept ∧ kept.head? = some b ∧
      kept.length ≤ rest.length + 1 := by
  obtain ⟨m, hm, hl⟩ := popBelowRev_append t b hb rest.reverse
  refine ⟨b :: m.reverse, ?_, rfl, ?_⟩
  · unfold pruneBelow
    rw [show (b :: rest).reverse = rest.reverse ++ [b] by simp, hm]
    simp
  · simp only [List.length_cons, List.length_reverse]
    simp only [List.length_reverse] at hl
    omega

/-- The head of a list is a member. -/
theorem mem_of_head? {α : Type} {l : List α} {b : α} (h : l.head? = some b) :
    b ∈ l := by
  cases l with
  | nil => simp at h
  | cons a t =>
    simp only [List.head?_cons, Option.some.injEq] at h
    rw [← h]
    exact List.mem_cons_self a t

/-- Taking at least one element preserves the head. -/
theorem head?_take {α : Type} {l : List α} {n : Nat} (hn : 1 ≤ n) :
    (l.take n).head? = l.head? := by
  cases l with
  | nil => simp
  | cons a tail =>
    match n, hn with
    | k + 1, _ => simp

/-- With score pruning disabled (`pruneScores = 0`, the default), the
beam-pruning step is just the conditional top-N truncation. -/
theorem prunePass_zero (cfg : RunConfig) (h : cfg.pruneScores = 0)
    (hopNo : Nat) (routes : List Route) :
    prunePass cfg hopNo routes =
      some (if cfg.maxRoutes ≠ 0 ∧ 1 ≤ hopNo then
              (⟨routes.take cfg.maxRoutes, [routes], []⟩ : PruneOut)
            else ⟨routes, [], []⟩) := by
  have h2 : cfg.pruneScores / 100 = 0 := by rw [h]; norm_num
  unfold prunePass
  by_cases htop : cfg.maxRoutes ≠ 0 ∧ 1 ≤ hopNo
  · simp only [if_pos htop]
    rw [if_neg (by simp [h2])]
  · simp only [if_neg htop]
    rw [if_neg (by simp [h2])]

/-- With score pruning disabled, the hop loop agrees with its
rational-arithmetic-free evaluator `hopLoopZeroAux` (and in particular
never crashes). -/
theorem hopLoopAux_zero (cfg : RunConfig)
    (expand : Nat → List Route → List Route) (h : cfg.pruneScores = 0) :
    ∀ (remaining hopNo : Nat) (routes : List Route),
      hopLoopAux cfg expand remaining hopNo routes =
        some (hopLoopZeroAux cfg expand remaining hopNo routes) := by
  intro remaining
  induction remaining with
  | zero => intro hopNo routes; rfl
  | succ k ih =>
    intro hopNo routes
    rw [hopLoopAux, hopLoopZeroAux, prunePass_zero cfg h hopNo routes]
    dsimp only
    generalize (if cfg.maxRoutes ≠ 0 ∧ 1 ≤ hopNo then
        (⟨routes.take cfg.maxRoutes, [routes], []⟩ : PruneOut)
      else ⟨routes, [], []⟩) = pruned
    by_cases hbreak : expand hopNo pruned.routes = [] ∧ 0 < hopNo
    · rw [if_pos hbreak, if_pos hbreak]
    · rw [if_neg hbreak, if_neg hbreak]
      cases hg : cfg.goalSystem with
      | none =>
        rw [ih]
        rfl
      | some g =>
        dsimp only
        by_cases hemp : expand hopNo pruned.routes = []
        · rw [if_pos hemp, if_pos hemp, ih]
          rfl
        · rw [if_neg hemp, if_neg hemp]
          by_cases hreach :
              goalReachedTop g (goalSort g (expand hopNo pruned.routes)) = true
          · rw [if_pos hreach, if_pos hreach]
          · rw [if_neg hreach, if_neg hreach, ih]
            rfl

/-- `hopLoop` with score pruning disabled, in evaluated form. -/
theorem hopLoop_zero (cfg : RunConfig)
    (expand : Nat → List Route → List Route) (init : List Route)
    (h : cfg.pruneScores = 0) :
    hopLoop cfg expand init =
      some (hopLoopZeroAux cfg expand cfg.numHops 0 init) :=
  hopLoopAux_zero cfg expand h cfg.numHops 0 init

/-- C1 counterexample: at hop 1 with `maxRoutes = 1`, pruning the
two-element candidate list whose best-ranked route sits second keeps
only the first (worse) route: the top-N cut truncates the list as
received from the previous expansion, without sorting it first, so the
single best-ranked route is removed. -/
theorem c1_counterexample :
    (prunePass c1Cfg 1 [c1Low, c1High]).map PruneOut.routes = some [c1Low] ∧
    c1Low.score < c1High.score ∧ c1High ∉ [c1Low] := by
  refine ⟨?_, by decide, by decide⟩
  rw [prunePass_zero c1Cfg rfl]
  decide

/-- C1 (amended): on a candidate list that is rank-sorted best first
with a nonnegative best score, and under the validated configuration
range `0 ≤ pruneScores ≤ 100`, the beam-pruning step (top-N cut and/or
score-ratio cut) succeeds, yields a list no longer than the input, and
keeps the best-ranked route (still in front). -/
theorem c1_beam_prune_amended (cfg : RunConfig) (hopNo : Nat)
    (routes : List Route) (best : Route)
    (hsorted : sortedByScore routes) (hhead : routes.head? = some best)
    (hbest : 0 ≤ best.score)
    (hps0 : 0 ≤ cfg.pruneScores) (hps1 : cfg.pruneScores ≤ 100) :
    ∃ out, prunePass cfg hopNo routes = some out ∧
      out.routes.length ≤ routes.length ∧
      out.routes.head? = some best ∧ best ∈ out.routes := by
  have hpm0 : 0 ≤ cfg.pruneScores / 100 := by positivity
  have hpm1 : cfg.pruneScores / 100 ≤ 1 := by
    rw [div_le_one (by norm_num)]
    linarith
  -- the stage-one output
  have hstage : ∀ routes1 tlog, sortedByScore routes1 →
      routes1.head? = some best → routes1.length ≤ routes.length →
      ∃ out, (if cfg.pruneScores / 100 ≠ 0 ∧ cfg.pruneHops ≤ hopNo + 1 ∧
                10 < routes1.length then
              match sortByScore routes1 with
              | [] => none
              | best1 :: rest =>
                match pruneBelow (best1.score * (cfg.pruneScores / 100)) (best1 :: rest) with
                | none => none
                | some kept => some (⟨kept, tlog, [best1 :: rest]⟩ : PruneOut)
             else some ⟨routes1, tlog, []⟩) = some out ∧
        out.routes.length ≤ routes.length ∧
        out.routes.head? = some best ∧ best ∈ out.routes := by
    intro routes1 tlog hs1 hh1 hlen1
    by_cases hcond : cfg.pruneScores / 100 ≠ 0 ∧ cfg.pruneHops ≤ hopNo + 1 ∧
        10 < routes1.length
    · rw [if_pos hcond]
      have hms : sortByScore routes1 = routes1 :=
        List.Sorted.insertionSort_eq hs1
      obtain ⟨tail, htail⟩ : ∃ tail, routes1 = best :: tail := by
        cases routes1 with
        | nil => simp at hh1
        | cons a t =>
          simp only [List.head?_cons, Option.some.injEq] at hh1
          exact ⟨t, by rw [hh1]⟩
      rw [hms, htail]
      have hthr : ¬ best.score < best.score * (cfg.pruneScores / 100) := by
        have : best.score * (cfg.pruneScores / 100) ≤ best.score * 1 := by
          apply mul_le_mul_of_nonneg_left hpm1 hbest
        simp only [mul_one] at this
        exact not_lt.mpr this
      obtain ⟨kept, hk, hkh, hkl⟩ := pruneBelow_cons _ best tail hthr
      dsimp only
      rw [hk]
      refine ⟨⟨kept, tlog, [best :: tail]⟩, rfl, ?_, hkh, mem_of_head? hkh⟩
      show kept.length ≤ routes.length
      have : routes1.length = tail.length + 1 := by rw [htail]; rfl
      omega
    · rw [if_neg hcond]
      exact ⟨⟨routes1, tlog, []⟩, rfl, hlen1, hh1, mem_of_head? hh1⟩
  unfold prunePass
  by_cases htop : cfg.maxRoutes ≠ 0 ∧ 1 ≤ hopNo
  · rw [if_pos htop]
    exact hstage (routes.take cfg.maxRoutes) [routes]
      (List.Pairwise.sublist (List.take_sublist _ _) hsorted)
      (by rw [head?_take (by omega), hhead])
      (by rw [List.length_take]; omega)
  · rw [if_neg htop]
    exact hstage routes [] hsorted hhead (le_refl _)

/-- C1 witness: the amended statement applied to a sorted two-route
list at hop 1 under `maxRoutes = 1`. -/
theorem c1_beam_prune_amended_witness :
    ∃ out, prunePass c1Cfg 1 [c1High, c1Low] = some out ∧
      out.routes.length ≤ [c1High, c1Low].length ∧
      out.routes.head? = some c1High ∧ c1High ∈ out.routes :=
  c1_beam_prune_amended c1Cfg 1 [c1High, c1Low] c1High
    (by unfold sortedByScore; decide) (by decide) (by decide)
    (by decide) (by decide)

/-- The output of `routes.sort()` is rank-sorted. -/
theorem sortByScore_sorted (l : List Route) : sortedByScore (sortByScore l) :=
  List.sorted_insertionSort scoreGE l

/-- Every list recorded as a score-ratio-cut input by the pruning step
is rank-sorted: the step sorts before popping. -/
theorem prunePass_ratioCuts (cfg : RunConfig) (hopNo : Nat)
    (routes : List Route) (out : PruneOut)
    (h : prunePass cfg hopNo routes = some out) :
    ∀ l ∈ out.ratioCuts, sortedByScore l := by
  have hstage : ∀ (routes1 : List Route) (tlog : List (List Route)),
      (if cfg.pruneScores / 100 ≠ 0 ∧ cfg.pruneHops ≤ hopNo + 1 ∧
            10 < routes1.length then
          match sortByScore routes1 with
          | [] => none
          | best :: rest =>
            match pruneBelow (best.score * (cfg.pruneScores / 100)) (best :: rest) with
            | none => none
            | some kept => some (⟨kept, tlog, [best :: rest]⟩ : PruneOut)
        else some ⟨routes1, tlog, []⟩) = some out →
      ∀ l ∈ out.ratioCuts, sortedByScore l := by
    intro routes1 tlog h1
    split_ifs at h1
    · cases hms : sortByScore routes1 with
      | nil => rw [hms] at h1; simp at h1
      | cons best rest =>
        rw [hms] at h1
        dsimp only at h1
        cases hpb : pruneBelow (best.score * (cfg.pruneScores / 100)) (best :: rest) with
        | none => rw [hpb] at h1; simp at h1
        | some kept =>
          rw [hpb] at h1
          simp only [Option.some_inj] at h1
          subst h1
          intro l hl
          simp only [List.mem_singleton] at hl
          subst hl
          rw [← hms]
          exact sortByScore_sorted routes1
    · simp only [Option.some_inj] at h1
      subst h1
      intro l hl
      simp at hl
  unfold prunePass at h
  by_cases htop : cfg.maxRoutes ≠ 0 ∧ 1 ≤ hopNo
  · rw [if_pos htop] at h
    dsimp only at h
    exact hstage _ _ h
  · rw [if_neg htop] at h
    dsimp only at h
    exact hstage _ _ h

/-- Along any run of the hop loop, every list the score-ratio cut is
applied to is rank-sorted. -/
theorem hopLoopAux_ratioCuts (cfg : RunConfig)
    (expand : Nat → List Route → List Route) :
    ∀ (remaining hopNo : Nat) (routes : List Route) (out : LoopOut),
      hopLoopAux cfg expand remaining hopNo routes = some out →
      ∀ l ∈ out.ratioCuts, sortedByScore l := by
  intro remaining
  induction remaining with
  | zero =>
    intro hopNo routes out h l hl
    simp only [hopLoopAux, Option.some_inj] at h
    subst h
    simp at hl
  | succ k ih =>
    intro hopNo routes out h l hl
    rw [hopLoopAux] at h
    cases hp : prunePass cfg hopNo routes with
    | none => rw [hp] at h; simp at h
    | some pruned =>
      rw [hp] at h
      dsimp only at h
      have hpr := prunePass_ratioCuts cfg hopNo routes pruned hp
      by_cases hbreak : expand hopNo pruned.routes = [] ∧ 0 < hopNo
      · rw [if_pos hbreak] at h
        simp only [Option.some_inj] at h
        subst h
        exact hpr l hl
      · rw [if_neg hbreak] at h
        cases hg : cfg.goalSystem with
        | none =>
          rw [hg] at h
          obtain ⟨out', ho', rfl⟩ := Option.map_eq_some'.mp h
          rcases List.mem_append.mp hl with h1 | h1
          · exact hpr l h1
          · exact ih _ _ _ ho' l h1
        | some g =>
          rw [hg] at h
          dsimp only at h
          by_cases hemp : expand hopNo pruned.routes = []
          · rw [if_pos hemp] at h
            obtain ⟨out', ho', rfl⟩ := Option.map_eq_some'.mp h
            rcases List.mem_append.mp hl with h1 | h1
            · exact hpr l h1
            · exact ih _ _ _ ho' l h1
          · rw [if_neg hemp] at h
            by_cases hreach :
                goalReachedTop g (goalSort g (expand hopNo pruned.routes)) = true
            · rw [if_pos hreach] at h
              simp only [Option.some_inj] at h
              subst h
              exact hpr l hl
            · rw [if_neg hreach] at h
              obtain ⟨out', ho', rfl⟩ := Option.map_eq_some'.mp h
              rcases List.mem_append.mp hl with h1 | h1
              · exact hpr l h1
              · exact ih _ _ _ ho' l h1

/-- C2 counterexample: in a full two-hop run, the top-N truncation of
hop 1 is applied to the list `[c2Low, c2High]` exactly as the hop-0
expansion produced it — and that list is not rank-sorted (the claim
demands every pruned list be fully rank-sorted best first). -/
theorem c2_counterexample :
    (hopLoop c2Cfg c2Expand [c2Seed]).map LoopOut.topNCuts =
      some [[c2Low, c2High]] ∧
    ¬ sortedByScore [c2Low, c2High] := by
  constructor
  · rw [hopLoop_zero c2Cfg c2Expand [c2Seed] rfl]
    decide
  · decide

/-- C2 (amended): the score-ratio cut is always applied to a fully
rank-sorted candidate list — the step sorts in place before popping; the
top-N truncation, by contrast, is applied to the previous expansion's
output as produced (no sort precedes it).  Formally: on every run of the
hop loop, every recorded score-ratio-cut input list is rank-sorted. -/
theorem c2_ratio_cut_sorted (cfg : RunConfig)
    (expand : Nat → List Route → List Route) (init : List Route)
    (out : LoopOut) (h : hopLoop cfg expand init = some out) :
    out.ratioCuts.all (fun l => decide (sortedByScore l)) = true := by
  rw [List.all_eq_true]
  intro l hl
  rw [decide_eq_true_eq]
  exact hopLoopAux_ratioCuts cfg expand cfg.numHops 0 init out h l hl

/-- C2 witness: the amended statement applied to the concrete two-hop
run of the counterexample configuration. -/
theorem c2_ratio_cut_sorted_witness :
    (⟨[c2Done], 2, none, false, [[c2Low, c2High]], [], []⟩ :
        LoopOut).ratioCuts.all (fun l => decide (sortedByScore l)) = true :=
  c2_ratio_cut_sorted c2Cfg c2Expand [c2Seed] _
    (by rw [hopLoop_zero c2Cfg c2Expand [c2Seed] rfl]; decide)

/-- The goal-bias sort output is ordered by the goal key. -/
theorem goalSort_sorted (g : Nat) (l : List Route) :
    (goalSort g l).Sorted (goalPref g) :=
  List.sorted_insertionSort (goalPref g) l

/-- Loop invariant for the goal bias: with a goal system set, every
recorded goal-sorted list is ordered by the goal key, and if the goal
early exit fired at hop `h0` then the loop executed exactly `h0 + 1`
iterations, `h0` lies in the executed range, and the final top candidate
ends in the goal system. -/
theorem hopLoopAux_goal (cfg : RunConfig) (g : Nat)
    (expand : Nat → List Route → List Route)
    (hg : cfg.goalSystem = some g) :
    ∀ (remaining hopNo : Nat) (routes : List Route) (out : LoopOut),
      hopLoopAux cfg expand remaining hopNo routes = some out →
      (∀ l ∈ out.goalSorts, l.Sorted (goalPref g)) ∧
      (∀ h0, out.goalReachedAt = some h0 →
        out.hopsRun = h0 + 1 ∧ hopNo ≤ h0 ∧ h0 < hopNo + remaining ∧
        goalReachedTop g out.routes = true) := by
  intro remaining
  induction remaining with
  | zero =>
    intro hopNo routes out h
    simp only [hopLoopAux, Option.some_inj] at h
    subst h
    refine ⟨by simp, ?_⟩
    intro h0 hr
    simp at hr
  | succ k ih =>
    intro hopNo routes out h
    rw [hopLoopAux] at h
    cases hp : prunePass cfg hopNo routes with
    | none => rw [hp] at h; simp at h
    | some pruned =>
      rw [hp] at h
      dsimp only at h
      by_cases hbreak : expand hopNo pruned.routes = [] ∧ 0 < hopNo
      · rw [if_pos hbreak] at h
        simp only [Option.some_inj] at h
        subst h
        refine ⟨by simp, ?_⟩
        intro h0 hr
        simp at hr
      · rw [if_neg hbreak, hg] at h
        dsimp only at h
        by_cases hemp : expand hopNo pruned.routes = []
        · rw [if_pos hemp] at h
          obtain ⟨out', ho', rfl⟩ := Option.map_eq_some'.mp h
          obtain ⟨ih1, ih2⟩ := ih _ _ _ ho'
          refine ⟨ih1, ?_⟩
          intro h0 hr
          obtain ⟨e1, e2, e3, e4⟩ := ih2 h0 hr
          exact ⟨e1, by omega, by omega, e4⟩
        · rw [if_neg hemp] at h
          by_cases hreach :
              goalReachedTop g (goalSort g (expand hopNo pruned.routes)) = true
          · rw [if_pos hreach] at h
            simp only [Option.some_inj] at h
            subst h
            constructor
            · intro l hl
              simp only [List.mem_singleton] at hl
              subst hl
              exact goalSort_sorted g _
            · intro h0 hr
              simp only [Option.some_inj] at hr
              subst hr
              exact ⟨rfl, le_refl _, by omega, hreach⟩
          · rw [if_neg hreach] at h
            obtain ⟨out', ho', rfl⟩ := Option.map_eq_some'.mp h
            obtain ⟨ih1, ih2⟩ := ih _ _ _ ho'
            constructor
            · intro l hl
              rcases List.mem_cons.mp hl with h1 | h1
              · subst h1
                exact goalSort_sorted g _
              · exact ih1 l h1
            · intro h0 hr
              obtain ⟨e1, e2, e3, e4⟩ := ih2 h0 hr
              exact ⟨e1, by omega, by omega, e4⟩

/-- C5: when a goal system `g` is set (and hence no explicit
destination), on every completed run of the hop loop (i) each candidate
list recorded at the goal-bias sort after a hop's expansion is ordered
by the goal key, so every route ending in the goal system precedes every
route that does not; and (ii) if the goal early exit fired at hop `h0`,
the loop executed exactly `h0 + 1` of its configured `numHops`
iterations — no later hop runs, so the loop stops before exhausting the
configured hop count whenever the goal is reached before the final
hop — and the top candidate of the final list ends in the goal
system. -/
theorem c5_goal_bias (cfg : RunConfig) (g : Nat)
    (expand : Nat → List Route → List Route) (init : List Route)
    (out : LoopOut) (hg : cfg.goalSystem = some g)
    (h : hopLoop cfg expand init = some out) :
    (out.goalSorts.all (fun l => decide (l.Sorted (goalPref g))) = true) ∧
    (∀ h0, out.goalReachedAt = some h0 →
      out.hopsRun = h0 + 1 ∧ h0 < cfg.numHops ∧
      goalReachedTop g out.routes = true) := by
  obtain ⟨h1, h2⟩ := hopLoopAux_goal cfg g expand hg cfg.numHops 0 init out h
  constructor
  · rw [List.all_eq_true]
    intro l hl
    rw [decide_eq_true_eq]
    exact h1 l hl
  · intro h0 hr
    obtain ⟨e1, _, e3, e4⟩ := h2 h0 hr
    exact ⟨e1, by omega, e4⟩

/-- C5 witness (the spec's Scenario B): with two configured hops and a
1-hop path reaching the goal, the loop stops after hop 1: exactly one
iteration ran, below the configured two, with the goal route sorted to
the front. -/
theorem c5_goal_bias_witness :
    (⟨[c5Goal, c5Other], 1, some 0, false, [], [], [[c5Goal, c5Other]]⟩ :
        LoopOut).hopsRun = 0 + 1 ∧
    0 < c5Cfg.numHops ∧
    goalReachedTop 10
      (⟨[c5Goal, c5Other], 1, some 0, false, [], [], [[c5Goal, c5Other]]⟩ :
        LoopOut).routes = true :=
  (c5_goal_bias c5Cfg 10 c5Expand [c5Seed]
      ⟨[c5Goal, c5Other], 1, some 0, false, [], [], [[c5Goal, c5Other]]⟩ rfl
      (by rw [hopLoop_zero c5Cfg c5Expand [c5Seed] rfl]; decide)).2 0 rfl

/-- An initial value never exceeds a left max-fold over it. -/
theorem le_foldl_max : ∀ (l : List Nat) (a : Nat), a ≤ l.foldl max a
  | [], _ => le_refl _
  | x :: xs, a => le_trans (le_max_left a x) (le_foldl_max xs (max a x))

/-- The `matchedRoutes` accumulator of the `filterByVia` scan collects
exactly the routes whose met count reaches the via-set size. -/
theorem viaLoop_matched (v : ViaSet) (pos : Nat) :
    ∀ (rs matched : List Route) (buckets : Nat → List Route) (maxMet : Nat),
      (viaLoop v pos rs matched buckets maxMet).1 =
        matched ++ rs.filter (fun r =>
          decide (0 < metCount v pos r) && decide (viaCard v ≤ metCount v pos r)) := by
  intro rs
  induction rs with
  | nil => intro matched buckets maxMet; simp [viaLoop]
  | cons r rest ih =>
    intro matched buckets maxMet
    by_cases h1 : 0 < metCount v pos r
    · by_cases h2 : viaCard v ≤ metCount v pos r
      · simp [viaLoop, h1, h2, ih, List.filter_cons]
      · by_cases h3 : maxMet ≤ metCount v pos r <;>
          simp [viaLoop, h1, h2, h3, ih, List.filter_cons]
    · simp [viaLoop, h1, ih, List.filter_cons]

/-- The `maxMet` accumulator of the scan is the max-fold of the
qualifying met counts. -/
theorem viaLoop_maxMet (v : ViaSet) (pos : Nat) :
    ∀ (rs matched : List Route) (buckets : Nat → List Route) (maxMet : Nat),
      (viaLoop v pos rs matched buckets maxMet).2.2 =
        (metsBelow v pos rs).foldl max maxMet := by
  intro rs
  induction rs with
  | nil => intro matched buckets maxMet; simp [viaLoop, metsBelow]
  | cons r rest ih =>
    intro matched buckets maxMet
    by_cases h1 : 0 < metCount v pos r
    · by_cases h2 : viaCard v ≤ metCount v pos r
      · have hk : ¬ metCount v pos r < viaCard v := by omega
        simp [viaLoop, h1, h2, ih, metsBelow, List.filter_cons, hk]
      · have hk : metCount v pos r < viaCard v := by omega
        by_cases h3 : maxMet ≤ metCount v pos r
        · have : max maxMet (metCount v pos r) = metCount v pos r :=
            Nat.max_eq_right h3
          simp [viaLoop, h1, h2, h3, ih, metsBelow, List.filter_cons, hk, this]
        · have : max maxMet (metCount v pos r) = maxMet :=
            Nat.max_eq_left (by omega)
          simp [viaLoop, h1, h2, h3, ih, metsBelow, List.filter_cons, hk, this]
    · simp [viaLoop, h1, ih, metsBelow, List.filter_cons]

/-- The `partialRoutes` dict of the `filterByVia` scan, read at the
final `maxMet`, holds exactly the scanned routes whose met count equals
that maximum (when the maximum rose above its initial value; otherwise
the initial bucket content survives in front). -/
theorem viaLoop_buckets (v : ViaSet) (pos : Nat) :
    ∀ (rs matched : List Route) (buckets : Nat → List Route) (maxMet : Nat),
      (viaLoop v pos rs matched buckets maxMet).2.1
          ((metsBelow v pos rs).foldl max maxMet) =
        (if (metsBelow v pos rs).foldl max maxMet = maxMet then
            buckets maxMet
          else []) ++
          rs.filter (fun r =>
            decide (metCount v pos r = (metsBelow v pos rs).foldl max maxMet) &&
            decide (0 < metCount v pos r) &&
            decide (metCount v pos r < viaCard v)) := by
  intro rs
  induction rs with
  | nil =>
    intro matched buckets maxMet
    simp [viaLoop, metsBelow]
  | cons r rest ih =>
    intro matched buckets maxMet
    by_cases h1 : 0 < metCount v pos r
    · by_cases h2 : viaCard v ≤ metCount v pos r
      · have hk : ¬ metCount v pos r < viaCard v := by omega
        have hmets : metsBelow v pos (r :: rest) = metsBelow v pos rest := by
          simp [metsBelow, List.filter_cons, hk]
        simp only [viaLoop, if_pos h1, if_pos h2, hmets]
        rw [ih]
        simp [List.filter_cons, hk]
      · have hk : metCount v pos r < viaCard v := by omega
        have hmets : metsBelow v pos (r :: rest) =
            metCount v pos r :: metsBelow v pos rest := by
          simp [metsBelow, List.filter_cons, h1, hk]
        by_cases h3 : maxMet ≤ metCount v pos r
        · have hM_ge : metCount v pos r ≤
              (metsBelow v pos rest).foldl max (metCount v pos r) :=
            le_foldl_max _ _
          rcases Nat.lt_or_ge maxMet (metCount v pos r) with h4 | h4
          · -- the max strictly rises: the bucket is reset then seeded with r
            simp only [viaLoop, if_pos h1, if_neg h2, if_pos h4, if_pos h3, hmets,
              List.foldl_cons, Nat.max_eq_right h3]
            rw [ih]
            by_cases hM : (metsBelow v pos rest).foldl max (metCount v pos r) =
                metCount v pos r
            · rw [if_pos hM, hM]
              simp only [Function.update_same]
              have hne : metCount v pos r ≠ maxMet := by omega
              rw [if_neg hne]
              simp [List.filter_cons, h1, hk, hM]
            · rw [if_neg hM]
              have hgt : metCount v pos r <
                  (metsBelow v pos rest).foldl max (metCount v pos r) := by
                omega
              have hne : (metsBelow v pos rest).foldl max (metCount v pos r) ≠
                  maxMet := by omega
              rw [if_neg hne]
              have hne2 : ¬ metCount v pos r =
                  (metsBelow v pos rest).foldl max (metCount v pos r) := by omega
              simp [List.filter_cons, hne2]
          · -- met = maxMet: the bucket is appended to, not reset
            have heq : metCount v pos r = maxMet := by omega
            have h4' : ¬ maxMet < metCount v pos r := by omega
            simp only [viaLoop, if_pos h1, if_neg h2, if_neg h4', if_pos h3, hmets,
              List.foldl_cons, Nat.max_eq_right h3]
            rw [ih]
            by_cases hM : (metsBelow v pos rest).foldl max (metCount v pos r) =
                metCount v pos r
            · rw [if_pos hM, hM]
              simp only [Function.update_same]
              rw [heq]
              simp [List.filter_cons, h1, hk, hM, heq]
              rw [if_pos (show 0 < maxMet ∧ maxMet < viaCard v by omega)]
            · rw [if_neg hM]
              have hne2 : ¬ metCount v pos r =
                  (metsBelow v pos rest).foldl max (metCount v pos r) := by omega
              have hne : (metsBelow v pos rest).foldl max (metCount v pos r) ≠
                  maxMet := by omega
              rw [if_neg hne]
              simp [List.filter_cons, hne2]
        · -- met below the current max: nothing changes
          have h4' : ¬ maxMet < metCount v pos r := by omega
          have hmax : max maxMet (metCount v pos r) = maxMet :=
            Nat.max_eq_left (by omega)
          have hMge : maxMet ≤ (metsBelow v pos rest).foldl max maxMet :=
            le_foldl_max _ _
          simp only [viaLoop, if_pos h1, if_neg h2, if_neg h4', if_neg h3, hmets,
            List.foldl_cons, hmax]
          rw [ih]
          have hne2 : ¬ metCount v pos r =
              (metsBelow v pos rest).foldl max maxMet := by omega
          simp [List.filter_cons, hne2]
    · have hmets : metsBelow v pos (r :: rest) = metsBelow v pos rest := by
        simp [metsBelow, List.filter_cons, h1]
      simp only [viaLoop, if_neg h1, hmets]
      rw [ih]
      simp [List.filter_cons, h1]

/-- C4 (amended): for a non-empty route list and non-empty via set, the
via filter partitions by the *per-stop match count* `met` (stops after
the fixed origin whose station or system is in the via set, counted with
multiplicity): if any route has `met ≥ |V|` the result is exactly the
routes with `met ≥ |V|` and no caution; otherwise, if the maximal count
`m` is positive, the result is exactly the routes with `met = m` plus a
caution naming `m`; and if no route matches any stop, a `NoDataError` is
raised. -/
theorem c4_via_filter_amended (routes : List Route) (v : ViaSet) (pos : Nat)
    (hne : routes ≠ []) (hv : 1 ≤ viaCard v) :
    (routes.any (fun r => decide (viaCard v ≤ metCount v pos r)) = true →
       filterByVia routes v pos =
         .ok (.pair (routes.filter fun r =>
                decide (viaCard v ≤ metCount v pos r)) none)) ∧
    (routes.all (fun r => decide (metCount v pos r < viaCard v)) = true →
     0 < maxMetOf v pos routes →
       filterByVia routes v pos =
         .ok (.pair (routes.filter fun r =>
                decide (metCount v pos r = maxMetOf v pos routes))
              (some (viaCaution (maxMetOf v pos routes))))) ∧
    (routes.all (fun r => decide (metCount v pos r = 0)) = true →
       filterByVia routes v pos =
         .error (.noData "No routes were found which matched your via selections.")) := by
  rcases hvl : viaLoop v pos routes [] (fun _ => []) 0 with ⟨matched, buckets, maxMet⟩
  have hmat : matched = routes.filter (fun r =>
      decide (0 < metCount v pos r) && decide (viaCard v ≤ metCount v pos r)) := by
    have h := viaLoop_matched v pos routes [] (fun _ => []) 0
    rw [hvl] at h
    simpa using h
  have hmax : maxMet = maxMetOf v pos routes := by
    have h := viaLoop_maxMet v pos routes [] (fun _ => []) 0
    rw [hvl] at h
    simpa [maxMetOf] using h
  have hbuck : buckets (maxMetOf v pos routes) =
      routes.filter (fun r =>
        decide (metCount v pos r = maxMetOf v pos routes) &&
        decide (0 < metCount v pos r) &&
        decide (metCount v pos r < viaCard v)) := by
    have h := viaLoop_buckets v pos routes [] (fun _ => []) 0
    rw [hvl] at h
    simpa [maxMetOf, ite_self] using h
  have hunfold : filterByVia routes v pos =
      (if matched ≠ [] then .ok (.pair matched none)
       else if maxMet = 0 then
         .error (.noData "No routes were found which matched your via selections.")
       else .ok (.pair (buckets maxMet) (some (viaCaution maxMet)))) := by
    unfold filterByVia
    rw [if_neg hne, hvl]
  refine ⟨?_, ?_, ?_⟩
  · intro hany
    obtain ⟨r0, hr0mem, hr0⟩ := List.any_eq_true.mp hany
    have hmat' : matched =
        routes.filter (fun r => decide (viaCard v ≤ metCount v pos r)) := by
      rw [hmat]
      apply List.filter_congr
      intro x _
      by_cases hc : viaCard v ≤ metCount v pos x
      · simp [hc, show 0 < metCount v pos x by omega]
      · simp [hc]
    have hmatne : matched ≠ [] := by
      rw [hmat']
      exact List.ne_nil_of_mem (List.mem_filter.mpr ⟨hr0mem, hr0⟩)
    rw [hunfold, if_pos hmatne, hmat']
  · intro hall hpos
    have hmatnil : matched = [] := by
      rw [hmat]
      rw [List.filter_eq_nil_iff]
      intro x hx
      have hx' := List.all_eq_true.mp hall x hx
      rw [decide_eq_true_eq] at hx'
      simp [show ¬ viaCard v ≤ metCount v pos x by omega]
    have hmaxne : ¬ (maxMet = 0) := by
      rw [hmax]
      omega
    have hbuck' : buckets maxMet = routes.filter (fun r =>
        decide (metCount v pos r = maxMetOf v pos routes)) := by
      rw [hmax, hbuck]
      apply List.filter_congr
      intro x hx
      have hx' := List.all_eq_true.mp hall x hx
      rw [decide_eq_true_eq] at hx'
      by_cases hc : metCount v pos x = maxMetOf v pos routes
      · simp [hc, show 0 < maxMetOf v pos routes from hpos,
          show maxMetOf v pos routes < viaCard v by omega]
      · simp [hc]
    rw [hunfold, if_neg (by simp [hmatnil]), if_neg hmaxne, hbuck', hmax]
  · intro hall
    have hmatnil : matched = [] := by
      rw [hmat]
      rw [List.filter_eq_nil_iff]
      intro x hx
      have hx' := List.all_eq_true.mp hall x hx
      rw [decide_eq_true_eq] at hx'
      simp [hx']
    have hmax0 : maxMet = 0 := by
      rw [hmax]
      have hmets : metsBelow v pos routes = [] := by
        rw [metsBelow, List.filter_eq_nil_iff]
        intro k hk
        obtain ⟨r0, hr0mem, hr0⟩ := List.mem_map.mp hk
        have hx' := List.all_eq_true.mp hall r0 hr0mem
        rw [decide_eq_true_eq] at hx'
        rw [← hr0]
        simp [hx']
      rw [maxMetOf, hmets]
      rfl
    rw [hunfold, if_neg (by simp [hmatnil]), if_pos hmax0]

/-- C4 counterexample: the route visits only one of the two via entries,
so by the claim the result must be the partial-match subset with a
caution naming 1 — but the source counts matching *stops* (two visits to
the same entry) against `len(viaSet)`, classifies the route as a full
match, and returns it with no caution. -/
theorem c4_counterexample :
    filterByVia [c4Route] c4V 1 = .ok (.pair [c4Route] none) ∧
    specEntriesVisited c4V 1 c4Route = 1 ∧ viaCard c4V = 2 :=
  ⟨rfl, by decide, by decide⟩

/-- C4 witness (the spec's Scenario C): a via set of two stations and a
single route matching one stop yields that route with a caution naming
count 1. -/
theorem c4_via_filter_amended_witness :
    filterByVia [c4WRoute] c4V 1 =
      .ok (.pair [c4WRoute] (some (viaCaution 1))) :=
  (c4_via_filter_amended [c4WRoute] c4V 1 (by decide) (by decide)).2.1
    (by decide) (by decide)

end TradeRun
